import Mathlib

/-!
Verification of the asynchronous websocket market-data layer of ccxt
(`python/ccxt/async_support/base/exchange.py`), shallowly embedded in Lean.

Part 1: the order-book merge engine (`searchIndexToInsertOrUpdate`,
`updateBidAsk`, `updateBidAskDiff`, `mergeOrderBookDelta`, `parse_bids_asks2`).
Prices and amounts are modelled as integers; the source algorithms use only
ordering, equality, addition and comparison with zero on them.
-/

namespace Ccxt

/-- A price level `[price, amount]`: element of `currentBidsAsks`. -/
abbrev Level : Type := ℤ × ℤ

/-- The `compare` closure inside `searchIndexToInsertOrUpdate` (exchange.py
lines 970-973): `direction = -1 if descending else 1`;
`compare(a, b) = -direction if a < b else direction if a > b else 0`. -/
def searchCompare (descending : Bool) (a b : ℤ) : ℤ :=
  let direction : ℤ := if descending then -1 else 1
  if a < b then -direction else if a > b then direction else 0

/-- `searchIndexToInsertOrUpdate(value, orderedArray, key, descending)`
(exchange.py lines 969-980): the first index `i` with
`compare(orderedArray[i][key], value) >= 0`, or `len(orderedArray)` when
there is none.  It is always called with `key = 0` (the price), so the
embedding fixes the key to the first component. -/
def searchIndexToInsertOrUpdate (descending : Bool) (value : ℤ) :
    List Level → Nat
  | [] => 0
  | l :: ls =>
    if searchCompare descending l.1 value ≥ 0 then 0
    else searchIndexToInsertOrUpdate descending value ls + 1

/-- `updateBidAsk(bidAsk, currentBidsAsks, bids)` (exchange.py lines 982-996):
insert or replace ordered; a level with equal price is deleted when the new
amount is 0 and replaced otherwise; with no equal price, a non-zero amount is
inserted at the search index and a zero amount is a no-op. -/
def updateBidAsk (bidAsk : Level) (currentBidsAsks : List Level)
    (bids : Bool) : List Level :=
  let index := searchIndexToInsertOrUpdate bids bidAsk.1 currentBidsAsks
  if index < currentBidsAsks.length ∧
      (currentBidsAsks.getD index (0, 0)).1 = bidAsk.1 then
    if bidAsk.2 = 0 then
      currentBidsAsks.eraseIdx index
    else
      currentBidsAsks.set index bidAsk
  else
    if bidAsk.2 ≠ 0 then
      currentBidsAsks.insertIdx index bidAsk
    else
      currentBidsAsks

/-- `updateBidAskDiff(bidAsk, currentBidsAsks, bids)` (exchange.py lines
998-1013): like `updateBidAsk` but on an equal price the incoming amount is
added to the stored amount (`nextValue = currentBidsAsks[index][1] +
bidAsk[1]`), deleting the level when the sum is 0. -/
def updateBidAskDiff (bidAsk : Level) (currentBidsAsks : List Level)
    (bids : Bool) : List Level :=
  let index := searchIndexToInsertOrUpdate bids bidAsk.1 currentBidsAsks
  if index < currentBidsAsks.length ∧
      (currentBidsAsks.getD index (0, 0)).1 = bidAsk.1 then
    let found := currentBidsAsks.getD index (0, 0)
    let nextValue := found.2 + bidAsk.2
    if nextValue = 0 then
      currentBidsAsks.eraseIdx index
    else
      currentBidsAsks.set index (found.1, nextValue)
  else
    if bidAsk.2 ≠ 0 then
      currentBidsAsks.insertIdx index bidAsk
    else
      currentBidsAsks

/-- Structurally recursive restatement of `updateBidAsk`, used to reason by
induction; `updateBidAsk_eq_updateRec` proves it equal to the source form. -/
def updateRec (bidAsk : Level) (bids : Bool) : List Level → List Level
  | [] => if bidAsk.2 ≠ 0 then [bidAsk] else []
  | l :: ls =>
    if searchCompare bids l.1 bidAsk.1 ≥ 0 then
      if l.1 = bidAsk.1 then
        if bidAsk.2 = 0 then ls else bidAsk :: ls
      else
        if bidAsk.2 ≠ 0 then bidAsk :: l :: ls else l :: ls
    else
      l :: updateRec bidAsk bids ls

/-- Structurally recursive restatement of `updateBidAskDiff`;
`updateBidAskDiff_eq_updateDiffRec` proves it equal to the source form. -/
def updateDiffRec (bidAsk : Level) (bids : Bool) : List Level → List Level
  | [] => if bidAsk.2 ≠ 0 then [bidAsk] else []
  | l :: ls =>
    if searchCompare bids l.1 bidAsk.1 ≥ 0 then
      if l.1 = bidAsk.1 then
        if l.2 + bidAsk.2 = 0 then ls else (l.1, l.2 + bidAsk.2) :: ls
      else
        if bidAsk.2 ≠ 0 then bidAsk :: l :: ls else l :: ls
    else
      l :: updateDiffRec bidAsk bids ls

/-- The configured price comparator: a level with price `x` belongs strictly
before a level with price `y` (descending for bids, ascending for asks). -/
def keyLt (bids : Bool) (x y : ℤ) : Prop :=
  if bids then y < x else x < y

instance (bids : Bool) (x y : ℤ) : Decidable (keyLt bids x y) := by
  unfold keyLt
  split <;> infer_instance

/-- A book side is strictly sorted by the configured comparator; this single
`Pairwise` statement also rules out duplicate prices. -/
def SortedSide (bids : Bool) (side : List Level) : Prop :=
  side.Pairwise (fun x y => keyLt bids x.1 y.1)

/-- The per-side loop of `mergeOrderBookDelta` (exchange.py lines 946-949):
each parsed delta is applied in order through `updateBidAsk`. -/
def applyDeltas (deltas : List Level) (side : List Level) (bids : Bool) :
    List Level :=
  deltas.foldl (fun cur b => updateBidAsk b cur bids) side

theorem searchCompare_nonneg_iff (bids : Bool) (a v : ℤ) :
    searchCompare bids a v ≥ 0 ↔ ¬keyLt bids a v := by
  cases bids <;> simp only [searchCompare, keyLt] <;> split_ifs <;> omega

theorem keyLt_trans {bids : Bool} {x y z : ℤ}
    (h1 : keyLt bids x y) (h2 : keyLt bids y z) : keyLt bids x z := by
  cases bids <;> simp only [keyLt] at * <;> split_ifs at * <;> omega

theorem keyLt_ne {bids : Bool} {x y : ℤ} (h : keyLt bids x y) : x ≠ y := by
  cases bids <;> simp only [keyLt] at h <;> split_ifs at h <;> omega

theorem keyLt_of_not_of_ne {bids : Bool} {x y : ℤ}
    (h1 : ¬keyLt bids x y) (h2 : x ≠ y) : keyLt bids y x := by
  cases bids <;> simp only [keyLt] at * <;> split_ifs at * <;> omega

theorem search_cons_pos {bids : Bool} {l : Level} {p : ℤ} (ls : List Level)
    (hc : searchCompare bids l.1 p ≥ 0) :
    searchIndexToInsertOrUpdate bids p (l :: ls) = 0 := by
  rw [searchIndexToInsertOrUpdate, if_pos hc]

theorem search_cons_neg {bids : Bool} {l : Level} {p : ℤ} (ls : List Level)
    (hc : ¬searchCompare bids l.1 p ≥ 0) :
    searchIndexToInsertOrUpdate bids p (l :: ls) =
      searchIndexToInsertOrUpdate bids p ls + 1 := by
  rw [searchIndexToInsertOrUpdate, if_neg hc]

theorem updateBidAsk_eq_updateRec (b : Level) (bids : Bool) :
    ∀ cur : List Level, updateBidAsk b cur bids = updateRec b bids cur := by
  intro cur
  induction cur with
  | nil =>
    by_cases ha : b.2 = 0 <;>
      simp [updateBidAsk, updateRec, searchIndexToInsertOrUpdate, ha]
  | cons l ls ih =>
    simp only [updateBidAsk, updateRec]
    by_cases hc : searchCompare bids l.1 b.1 ≥ 0
    · rw [search_cons_pos ls hc, if_pos hc, List.length_cons, List.getD_cons_zero]
      by_cases hp : l.1 = b.1
      · rw [if_pos ⟨Nat.succ_pos _, hp⟩, if_pos hp]
        by_cases ha : b.2 = 0
        · rw [if_pos ha, if_pos ha]
          rfl
        · rw [if_neg ha, if_neg ha, List.set_cons_zero]
      · rw [if_neg (fun h => hp h.2), if_neg hp]
        by_cases ha : b.2 ≠ 0
        · rw [if_pos ha, if_pos ha, List.insertIdx_zero]
        · rw [if_neg ha, if_neg ha]
    · rw [search_cons_neg ls hc, if_neg hc, ← ih]
      simp only [updateBidAsk]
      rw [List.getD_cons_succ, List.length_cons]
      by_cases hfound : searchIndexToInsertOrUpdate bids b.1 ls < ls.length ∧
          (ls.getD (searchIndexToInsertOrUpdate bids b.1 ls) (0, 0)).1 = b.1
      · rw [if_pos ⟨Nat.succ_lt_succ hfound.1, hfound.2⟩, if_pos hfound]
        by_cases ha : b.2 = 0
        · rw [if_pos ha, if_pos ha, List.eraseIdx_cons_succ]
        · rw [if_neg ha, if_neg ha, List.set_cons_succ]
      · rw [if_neg (fun h => hfound ⟨Nat.lt_of_succ_lt_succ h.1, h.2⟩), if_neg hfound]
        by_cases ha : b.2 ≠ 0
        · rw [if_pos ha, if_pos ha, List.insertIdx_succ_cons]
        · rw [if_neg ha, if_neg ha]

theorem updateBidAskDiff_eq_updateDiffRec (b : Level) (bids : Bool) :
    ∀ cur : List Level, updateBidAskDiff b cur bids = updateDiffRec b bids cur := by
  intro cur
  induction cur with
  | nil =>
    by_cases ha : b.2 = 0 <;>
      simp [updateBidAskDiff, updateDiffRec, searchIndexToInsertOrUpdate, ha]
  | cons l ls ih =>
    simp only [updateBidAskDiff, updateDiffRec]
    by_cases hc : searchCompare bids l.1 b.1 ≥ 0
    · rw [search_cons_pos ls hc, if_pos hc, List.length_cons, List.getD_cons_zero]
      by_cases hp : l.1 = b.1
      · rw [if_pos ⟨Nat.succ_pos _, hp⟩, if_pos hp]
        by_cases hv : l.2 + b.2 = 0
        · rw [if_pos hv, if_pos hv]
          rfl
        · rw [if_neg hv, if_neg hv, List.set_cons_zero]
      · rw [if_neg (fun h => hp h.2), if_neg hp]
        by_cases ha : b.2 ≠ 0
        · rw [if_pos ha, if_pos ha, List.insertIdx_zero]
        · rw [if_neg ha, if_neg ha]
    · rw [search_cons_neg ls hc, if_neg hc, ← ih]
      simp only [updateBidAskDiff]
      rw [List.getD_cons_succ, List.length_cons]
      by_cases hfound : searchIndexToInsertOrUpdate bids b.1 ls < ls.length ∧
          (ls.getD (searchIndexToInsertOrUpdate bids b.1 ls) (0, 0)).1 = b.1
      · rw [if_pos ⟨Nat.succ_lt_succ hfound.1, hfound.2⟩, if_pos hfound]
        by_cases hv : (ls.getD (searchIndexToInsertOrUpdate bids b.1 ls) (0, 0)).2 + b.2 = 0
        · rw [if_pos hv, if_pos hv, List.eraseIdx_cons_succ]
        · rw [if_neg hv, if_neg hv, List.set_cons_succ]
      · rw [if_neg (fun h => hfound ⟨Nat.lt_of_succ_lt_succ h.1, h.2⟩), if_neg hfound]
        by_cases ha : b.2 ≠ 0
        · rw [if_pos ha, if_pos ha, List.insertIdx_succ_cons]
        · rw [if_neg ha, if_neg ha]

theorem mem_updateRec {b x : Level} {bids : Bool} {ls : List Level}
    (hx : x ∈ updateRec b bids ls) : x = b ∨ x ∈ ls := by
  induction ls with
  | nil =>
    by_cases ha : b.2 = 0 <;> simp [updateRec, ha] at hx <;> simp [hx]
  | cons l ls ih =>
    rw [updateRec] at hx
    by_cases hc : searchCompare bids l.1 b.1 ≥ 0
    · rw [if_pos hc] at hx
      by_cases hp : l.1 = b.1
      · rw [if_pos hp] at hx
        by_cases ha : b.2 = 0
        · rw [if_pos ha] at hx
          exact Or.inr (List.mem_cons_of_mem l hx)
        · rw [if_neg ha] at hx
          rcases List.mem_cons.mp hx with h | h
          · exact Or.inl h
          · exact Or.inr (List.mem_cons_of_mem l h)
      · rw [if_neg hp] at hx
        by_cases ha : b.2 ≠ 0
        · rw [if_pos ha] at hx
          rcases List.mem_cons.mp hx with h | h
          · exact Or.inl h
          · exact Or.inr h
        · rw [if_neg ha] at hx
          exact Or.inr hx
    · rw [if_neg hc] at hx
      rcases List.mem_cons.mp hx with h | h
      · exact Or.inr (h ▸ List.mem_cons_self l ls)
      · rcases ih h with h2 | h2
        · exact Or.inl h2
        · exact Or.inr (List.mem_cons_of_mem l h2)

theorem priceMem_updateDiffRec {b x : Level} {bids : Bool} {ls : List Level}
    (hx : x ∈ updateDiffRec b bids ls) : x.1 = b.1 ∨ x.1 ∈ ls.map Prod.fst := by
  induction ls with
  | nil =>
    by_cases ha : b.2 = 0 <;> simp [updateDiffRec, ha] at hx <;> simp [hx]
  | cons l ls ih =>
    rw [updateDiffRec] at hx
    by_cases hc : searchCompare bids l.1 b.1 ≥ 0
    · rw [if_pos hc] at hx
      by_cases hp : l.1 = b.1
      · rw [if_pos hp] at hx
        by_cases hv : l.2 + b.2 = 0
        · rw [if_pos hv] at hx
          exact Or.inr (List.mem_map_of_mem _ (List.mem_cons_of_mem l hx))
        · rw [if_neg hv] at hx
          rcases List.mem_cons.mp hx with h | h
          · exact Or.inl (by rw [h]; exact hp)
          · exact Or.inr (List.mem_map_of_mem _ (List.mem_cons_of_mem l h))
      · rw [if_neg hp] at hx
        by_cases ha : b.2 ≠ 0
        · rw [if_pos ha] at hx
          rcases List.mem_cons.mp hx with h | h
          · exact Or.inl (by rw [h])
          · exact Or.inr (List.mem_map_of_mem _ h)
        · rw [if_neg ha] at hx
          exact Or.inr (List.mem_map_of_mem _ hx)
    · rw [if_neg hc] at hx
      rcases List.mem_cons.mp hx with h | h
      · exact Or.inr (by rw [h]; exact List.mem_map_of_mem _ (List.mem_cons_self l ls))
      · rcases ih h with h2 | h2
        · exact Or.inl h2
        · right
          rcases List.mem_map.mp h2 with ⟨y, hy, hxy⟩
          exact List.mem_map.mpr ⟨y, List.mem_cons_of_mem l hy, hxy⟩

theorem sorted_updateRec {b : Level} {bids : Bool} {ls : List Level}
    (hs : SortedSide bids ls) : SortedSide bids (updateRec b bids ls) := by
  induction ls with
  | nil =>
    by_cases ha : b.2 = 0 <;> simp [updateRec, ha, SortedSide]
  | cons l ls ih =>
    rw [SortedSide, List.pairwise_cons] at hs
    obtain ⟨hhead, htail⟩ := hs
    rw [SortedSide, updateRec]
    by_cases hc : searchCompare bids l.1 b.1 ≥ 0
    · rw [if_pos hc]
      by_cases hp : l.1 = b.1
      · rw [if_pos hp]
        by_cases ha : b.2 = 0
        · rw [if_pos ha]
          exact htail
        · rw [if_neg ha, List.pairwise_cons]
          exact ⟨fun y hy => hp ▸ hhead y hy, htail⟩
      · rw [if_neg hp]
        have hbl : keyLt bids b.1 l.1 :=
          keyLt_of_not_of_ne ((searchCompare_nonneg_iff bids l.1 b.1).mp hc) hp
        by_cases ha : b.2 ≠ 0
        · rw [if_pos ha, List.pairwise_cons]
          refine ⟨?_, List.pairwise_cons.mpr ⟨hhead, htail⟩⟩
          intro y hy
          rcases List.mem_cons.mp hy with h | h
          · rw [h]
            exact hbl
          · exact keyLt_trans hbl (hhead y h)
        · rw [if_neg ha, List.pairwise_cons]
          exact ⟨hhead, htail⟩
    · rw [if_neg hc, List.pairwise_cons]
      have hlb : keyLt bids l.1 b.1 := by
        by_contra hnot
        exact hc ((searchCompare_nonneg_iff bids l.1 b.1).mpr hnot)
      refine ⟨?_, ih htail⟩
      intro y hy
      rcases mem_updateRec hy with h | h
      · rw [h]
        exact hlb
      · exact hhead y h

theorem sorted_updateDiffRec {b : Level} {bids : Bool} {ls : List Level}
    (hs : SortedSide bids ls) : SortedSide bids (updateDiffRec b bids ls) := by
  induction ls with
  | nil =>
    by_cases ha : b.2 = 0 <;> simp [updateDiffRec, ha, SortedSide]
  | cons l ls ih =>
    rw [SortedSide, List.pairwise_cons] at hs
    obtain ⟨hhead, htail⟩ := hs
    rw [SortedSide, updateDiffRec]
    by_cases hc : searchCompare bids l.1 b.1 ≥ 0
    · rw [if_pos hc]
      by_cases hp : l.1 = b.1
      · rw [if_pos hp]
        by_cases hv : l.2 + b.2 = 0
        · rw [if_pos hv]
          exact htail
        · rw [if_neg hv, List.pairwise_cons]
          exact ⟨fun y hy => hhead y hy, htail⟩
      · rw [if_neg hp]
        have hbl : keyLt bids b.1 l.1 :=
          keyLt_of_not_of_ne ((searchCompare_nonneg_iff bids l.1 b.1).mp hc) hp
        by_cases ha : b.2 ≠ 0
        · rw [if_pos ha, List.pairwise_cons]
          refine ⟨?_, List.pairwise_cons.mpr ⟨hhead, htail⟩⟩
          intro y hy
          rcases List.mem_cons.mp hy with h | h
          · rw [h]
            exact hbl
          · exact keyLt_trans hbl (hhead y h)
        · rw [if_neg ha, List.pairwise_cons]
          exact ⟨hhead, htail⟩
    · rw [if_neg hc, List.pairwise_cons]
      have hlb : keyLt bids l.1 b.1 := by
        by_contra hnot
        exact hc ((searchCompare_nonneg_iff bids l.1 b.1).mpr hnot)
      refine ⟨?_, ih htail⟩
      intro y hy
      rcases priceMem_updateDiffRec hy with h | h
      · rw [h]
        exact hlb
      · rcases List.mem_map.mp h with ⟨z, hz, hzy⟩
        rw [← hzy]
        exact hhead z hz

theorem nonzero_updateRec {b : Level} {bids : Bool} {ls : List Level}
    (hz : ∀ y ∈ ls, y.2 ≠ 0) : ∀ x ∈ updateRec b bids ls, x.2 ≠ 0 := by
  induction ls with
  | nil =>
    intro x hx
    by_cases ha : b.2 = 0
    · simp [updateRec, ha] at hx
    · simp [updateRec, ha] at hx
      rw [hx]
      exact ha
  | cons l ls ih =>
    intro x hx
    have hzt : ∀ y ∈ ls, y.2 ≠ 0 := fun y hy => hz y (List.mem_cons_of_mem l hy)
    rw [updateRec] at hx
    by_cases hc : searchCompare bids l.1 b.1 ≥ 0
    · rw [if_pos hc] at hx
      by_cases hp : l.1 = b.1
      · rw [if_pos hp] at hx
        by_cases ha : b.2 = 0
        · rw [if_pos ha] at hx
          exact hzt x hx
        · rw [if_neg ha] at hx
          rcases List.mem_cons.mp hx with h | h
          · rw [h]
            exact ha
          · exact hzt x h
      · rw [if_neg hp] at hx
        by_cases ha : b.2 ≠ 0
        · rw [if_pos ha] at hx
          rcases List.mem_cons.mp hx with h | h
          · rw [h]
            exact ha
          · exact hz x h
        · rw [if_neg ha] at hx
          exact hz x hx
    · rw [if_neg hc] at hx
      rcases List.mem_cons.mp hx with h | h
      · exact h ▸ hz l (List.mem_cons_self l ls)
      · exact ih hzt x h

theorem sortedSide_nodup_prices {bids : Bool} {side : List Level}
    (hs : SortedSide bids side) : (side.map Prod.fst).Nodup := by
  show (side.map Prod.fst).Pairwise (· ≠ ·)
  rw [List.pairwise_map]
  exact List.Pairwise.imp (fun h => keyLt_ne h) hs

theorem applyDeltas_cons (d : Level) (ds side : List Level) (bids : Bool) :
    applyDeltas (d :: ds) side bids =
      applyDeltas ds (updateBidAsk d side bids) bids := rfl

theorem updateBidAsk_invariant {b : Level} {bids : Bool} {side : List Level}
    (hs : SortedSide bids side) (hz : ∀ x ∈ side, x.2 ≠ 0) :
    SortedSide bids (updateBidAsk b side bids) ∧
      ∀ x ∈ updateBidAsk b side bids, x.2 ≠ 0 := by
  rw [updateBidAsk_eq_updateRec]
  exact ⟨sorted_updateRec hs, nonzero_updateRec hz⟩

/-- **C1.** For every order-book side strictly sorted by the configured
comparator (descending for bids, ascending for asks) with no zero-amount
levels, applying any finite sequence of deltas through `updateBidAsk` (the
per-delta operation invoked by `mergeOrderBookDelta`) yields a side that is
again strictly sorted by that comparator, has no duplicate prices, and has no
zero-amount levels — for every sequence, hence regardless of delta order. -/
theorem applyDeltas_invariant (bids : Bool) (deltas side : List Level)
    (hs : SortedSide bids side) (hz : ∀ x ∈ side, x.2 ≠ 0) :
    SortedSide bids (applyDeltas deltas side bids) ∧
      ((applyDeltas deltas side bids).map Prod.fst).Nodup ∧
      ∀ x ∈ applyDeltas deltas side bids, x.2 ≠ 0 := by
  induction deltas generalizing side with
  | nil => exact ⟨hs, sortedSide_nodup_prices hs, hz⟩
  | cons d ds ih =>
    rw [applyDeltas_cons]
    have hstep := updateBidAsk_invariant (b := d) hs hz
    exact ih _ hstep.1 hstep.2

/-- Witness for C1 at a concrete delta sequence applied to the empty bid
side. -/
theorem applyDeltas_invariant_witness :
    SortedSide true (applyDeltas [((100 : ℤ), (5 : ℤ)), (99, 1), (100, 0)] [] true) ∧
      ((applyDeltas [((100 : ℤ), (5 : ℤ)), (99, 1), (100, 0)] [] true).map
        Prod.fst).Nodup ∧
      ∀ x ∈ applyDeltas [((100 : ℤ), (5 : ℤ)), (99, 1), (100, 0)] [] true,
        x.2 ≠ 0 :=
  applyDeltas_invariant true [((100 : ℤ), (5 : ℤ)), (99, 1), (100, 0)] []
    (by simp [SortedSide]) (by simp)

theorem updateRec_zero_eq_filter {bids : Bool} {p : ℤ} {side : List Level}
    (hs : SortedSide bids side) :
    updateRec (p, 0) bids side = side.filter (fun l => decide (l.1 ≠ p)) := by
  induction side with
  | nil => simp [updateRec]
  | cons l ls ih =>
    rw [SortedSide, List.pairwise_cons] at hs
    obtain ⟨hhead, htail⟩ := hs
    rw [updateRec]
    by_cases hc : searchCompare bids l.1 p ≥ 0
    · rw [if_pos hc]
      by_cases hp : l.1 = p
      · rw [if_pos hp, if_pos rfl]
        have hfl : ls.filter (fun l => decide (l.1 ≠ p)) = ls := by
          apply List.filter_eq_self.mpr
          intro y hy
          exact decide_eq_true (Ne.symm (keyLt_ne (hp ▸ hhead y hy)))
        rw [List.filter_cons_of_neg (by simp [hp]), hfl]
      · rw [if_neg hp, if_neg (fun h => h rfl)]
        have hpl : keyLt bids p l.1 :=
          keyLt_of_not_of_ne ((searchCompare_nonneg_iff bids l.1 p).mp hc) hp
        have hfl : ls.filter (fun l => decide (l.1 ≠ p)) = ls := by
          apply List.filter_eq_self.mpr
          intro y hy
          exact decide_eq_true (Ne.symm (keyLt_ne (keyLt_trans hpl (hhead y hy))))
        rw [List.filter_cons_of_pos (by simp [hp]), hfl]
    · rw [if_neg hc]
      have hlp : keyLt bids l.1 p := by
        by_contra hnot
        exact hc ((searchCompare_nonneg_iff bids l.1 p).mpr hnot)
      rw [List.filter_cons_of_pos (by simp [keyLt_ne hlp]), ih htail]

/-- **C6.** A delta with amount 0 applied through `updateBidAsk` to a sorted
book side removes exactly the level carrying that price when one is present
and is a no-op otherwise (stated as one filter equation); moreover the delta
sequence `[[100, 5]]` then `[[100, 0]]` applied to an empty bid side yields
the empty side. -/
theorem updateBidAsk_zero_amount (bids : Bool) (p : ℤ) (side : List Level)
    (hs : SortedSide bids side) :
    updateBidAsk (p, 0) side bids = side.filter (fun l => decide (l.1 ≠ p)) ∧
      applyDeltas [((100 : ℤ), (5 : ℤ)), (100, 0)] [] true = [] := by
  constructor
  · rw [updateBidAsk_eq_updateRec]
    exact updateRec_zero_eq_filter hs
  · rfl

/-- Witness for C6 on a concrete sorted bid side containing price 100. -/
theorem updateBidAsk_zero_amount_witness :
    updateBidAsk ((100 : ℤ), (0 : ℤ)) [(101, 2), (100, 5), (99, 1)] true =
        [((101 : ℤ), (2 : ℤ)), (100, 5), (99, 1)].filter
          (fun l => decide (l.1 ≠ (100 : ℤ))) ∧
      applyDeltas [((100 : ℤ), (5 : ℤ)), (100, 0)] [] true = [] :=
  updateBidAsk_zero_amount true 100 [(101, 2), (100, 5), (99, 1)]
    (by simp [SortedSide, keyLt])

theorem updateDiffRec_found {bids : Bool} {p a d : ℤ} {pre post : List Level}
    (hs : SortedSide bids (pre ++ (p, a) :: post)) :
    updateDiffRec (p, d) bids (pre ++ (p, a) :: post) =
      if a + d = 0 then pre ++ post else pre ++ (p, a + d) :: post := by
  induction pre with
  | nil =>
    simp only [List.nil_append]
    rw [updateDiffRec]
    have hc : searchCompare bids (p, a).1 (p, d).1 ≥ 0 := by
      rw [searchCompare_nonneg_iff]
      exact fun h => absurd rfl (keyLt_ne h)
    rw [if_pos hc, if_pos rfl]
  | cons l pre ih =>
    rw [List.cons_append] at hs
    rw [SortedSide, List.pairwise_cons] at hs
    obtain ⟨hhead, htail⟩ := hs
    have hlp : keyLt bids l.1 p := hhead (p, a) (by simp)
    have hc : ¬searchCompare bids l.1 (p, d).1 ≥ 0 := by
      rw [searchCompare_nonneg_iff]
      exact fun h => h hlp
    rw [List.cons_append, updateDiffRec, if_neg hc, ih htail]
    by_cases hv : a + d = 0
    · rw [if_pos hv, if_pos hv, List.cons_append]
    · rw [if_neg hv, if_neg hv, List.cons_append]

/-- **C7.** For a sorted book side containing a level `(p, a)`, applying a
delta `(p, d)` through `updateBidAskDiff` replaces that level's amount by
`a + d` when the sum is non-zero and removes the level when the sum is zero,
leaving every other level (and its position) unchanged. -/
theorem updateBidAskDiff_existing_level (bids : Bool) (p a d : ℤ)
    (pre post : List Level) (hs : SortedSide bids (pre ++ (p, a) :: post)) :
    updateBidAskDiff (p, d) (pre ++ (p, a) :: post) bids =
      if a + d = 0 then pre ++ post else pre ++ (p, a + d) :: post := by
  rw [updateBidAskDiff_eq_updateDiffRec]
  exact updateDiffRec_found hs

/-- Witness for C7: cancelling the amount of the middle level of a concrete
ask side. -/
theorem updateBidAskDiff_existing_level_witness :
    updateBidAskDiff ((100 : ℤ), (-5 : ℤ))
        ([(99, 4)] ++ ((100 : ℤ), (5 : ℤ)) :: [(101, 3)]) false =
      if (5 : ℤ) + (-5) = 0 then [((99 : ℤ), (4 : ℤ))] ++ [(101, 3)]
      else [((99 : ℤ), (4 : ℤ))] ++ (100, 5 + (-5)) :: [(101, 3)] :=
  updateBidAskDiff_existing_level false 100 5 (-5) [(99, 4)] [(101, 3)]
    (by simp [SortedSide, keyLt])

theorem self_mem_updateDiffRec {b : Level} {bids : Bool} {ls : List Level}
    (hp : b.1 ∉ ls.map Prod.fst) (hd : b.2 ≠ 0) :
    b ∈ updateDiffRec b bids ls := by
  induction ls with
  | nil => simp [updateDiffRec, hd]
  | cons l ls ih =>
    rw [List.map_cons] at hp
    have hlp : l.1 ≠ b.1 :=
      fun h => hp (by rw [h]; exact List.mem_cons_self _ _)
    have hptail : b.1 ∉ ls.map Prod.fst :=
      fun h => hp (List.mem_cons_of_mem _ h)
    rw [updateDiffRec]
    by_cases hc : searchCompare bids l.1 b.1 ≥ 0
    · rw [if_pos hc, if_neg hlp, if_pos hd]
      exact List.mem_cons_self _ _
    · rw [if_neg hc]
      exact List.mem_cons_of_mem l (ih hptail)

/-- **C10.** When no level of a sorted side carries the delta's price,
`updateBidAskDiff` with a non-zero (possibly negative) amount inserts the
pair as-is at the index found by `searchIndexToInsertOrUpdate`; the result is
still sorted and contains the pair `(p, d)` unchanged — a negative increment
for an absent price creates a negative-amount level rather than being a
no-op. -/
theorem updateBidAskDiff_absent_price (bids : Bool) (p d : ℤ)
    (side : List Level) (hs : SortedSide bids side)
    (hp : p ∉ side.map Prod.fst) (hd : d ≠ 0) :
    updateBidAskDiff (p, d) side bids =
        side.insertIdx (searchIndexToInsertOrUpdate bids p side) (p, d) ∧
      SortedSide bids (updateBidAskDiff (p, d) side bids) ∧
      (p, d) ∈ updateBidAskDiff (p, d) side bids := by
  refine ⟨?_, ?_, ?_⟩
  · have hnf : ¬(searchIndexToInsertOrUpdate bids p side < side.length ∧
        (side.getD (searchIndexToInsertOrUpdate bids p side) (0, 0)).1 = p) := by
      rintro ⟨hlt, heq⟩
      have hmem : side.getD (searchIndexToInsertOrUpdate bids p side) (0, 0)
          ∈ side := by
        rw [List.getD_eq_getElem _ _ hlt]
        exact List.getElem_mem hlt
      exact hp (heq ▸ List.mem_map_of_mem Prod.fst hmem)
    simp only [updateBidAskDiff]
    rw [if_neg hnf, if_pos hd]
  · rw [updateBidAskDiff_eq_updateDiffRec]
    exact sorted_updateDiffRec hs
  · rw [updateBidAskDiff_eq_updateDiffRec]
    exact self_mem_updateDiffRec hp hd

/-- Witness for C10: a negative increment for the absent price 100 on a
concrete ask side. -/
theorem updateBidAskDiff_absent_price_witness :
    updateBidAskDiff ((100 : ℤ), (-2 : ℤ)) [(99, 4), (101, 3)] false =
        List.insertIdx
          (searchIndexToInsertOrUpdate false 100 [(99, 4), (101, 3)])
          (100, -2) [(99, 4), (101, 3)] ∧
      SortedSide false
        (updateBidAskDiff ((100 : ℤ), (-2 : ℤ)) [(99, 4), (101, 3)] false) ∧
      ((100 : ℤ), (-2 : ℤ)) ∈
        updateBidAskDiff ((100 : ℤ), (-2 : ℤ)) [(99, 4), (101, 3)] false :=
  updateBidAskDiff_absent_price false 100 (-2) [(99, 4), (101, 3)]
    (by simp [SortedSide, keyLt]) (by simp) (by simp)

/-!
Part 2: the connection context store (`websocketContexts`) and the
subscription action resolver (`_websocket_get_action_for_event`).  Python
dicts are modelled as insertion-ordered association lists; an unguarded dict
index becomes an `Except` that can fail with `keyError`.
-/

/-- The Python-level failures the embedded code can raise. -/
inductive PyErr where
  | keyError
  | invalidState
  | exchangeError (msg : String)
  | notSupported (msg : String)
  | timeout (scope : String)
deriving DecidableEq, Repr

/-- Per-(event, symbol) entry of a connection context: the nested dict built
by `_contextResetSymbol` (exchange.py lines 398-403), with the optional
`params` key added by `_contextSetSubscribed` (lines 411-413).  The cached
`data` payload is irrelevant to the claims and omitted. -/
structure SymbolContext where
  subscribed : Bool
  subscribing : Bool
  params : Option (List (String × String)) := none
deriving DecidableEq, Repr

/-- A connection context (lines 337-343): `events` maps event name → symbol
name → `SymbolContext`.  The scratch map, template name and physical
connection handle are not used by the claims. -/
structure ConnectionContext where
  events : List (String × List (String × SymbolContext))
deriving DecidableEq, Repr

/-- The mutable `self.websocketContexts` mapping, conxid → context. -/
structure WsState where
  websocketContexts : List (String × ConnectionContext)
deriving DecidableEq, Repr

/-- `_contextIsSubscribed(conxid, event, symbol)` (lines 415-418).  The
outer `self.websocketContexts[conxid]` access is an unguarded dict index, so
an unknown connection id raises `KeyError`; the `event in ...` and
`symbol in ...` guards make the two inner lookups total. -/
def _contextIsSubscribed (st : WsState) (conxid event symbol : String) :
    Except PyErr Bool :=
  match st.websocketContexts.lookup conxid with
  | none => .error .keyError
  | some ctx =>
    match ctx.events.lookup event with
    | none => .ok false
    | some syms =>
      match syms.lookup symbol with
      | none => .ok false
      | some sc => .ok sc.subscribed

/-- `_contextIsSubscribing(conxid, event, symbol)` (lines 423-426), same
shape as `_contextIsSubscribed`. -/
def _contextIsSubscribing (st : WsState) (conxid event symbol : String) :
    Except PyErr Bool :=
  match st.websocketContexts.lookup conxid with
  | none => .error .keyError
  | some ctx =>
    match ctx.events.lookup event with
    | none => .ok false
    | some syms =>
      match syms.lookup symbol with
      | none => .ok false
      | some sc => .ok sc.subscribing

/-- C5 counterexample: on a connection id that was never created, both reads
raise `KeyError` instead of returning `False`. -/
theorem contextReads_unknown_conxid_raise :
    _contextIsSubscribed ⟨[]⟩ "c" "e" "s" = .error .keyError ∧
      _contextIsSubscribing ⟨[]⟩ "c" "e" "s" = .error .keyError :=
  ⟨rfl, rfl⟩

/-- **C5 (amended).** For a connection id that is present in the context
store, `_contextIsSubscribed` and `_contextIsSubscribing` never raise — they
return `.ok` of some boolean, and return `False` whenever the event is
absent from that connection's context or the symbol is absent under the
event.  (For a connection id absent from the store the unguarded dict index
raises `KeyError`; see the counterexample.) -/
theorem contextReads_total_on_known_conxid (st : WsState)
    (conxid event symbol : String) (ctx : ConnectionContext)
    (hconx : st.websocketContexts.lookup conxid = some ctx) :
    (∃ b1, _contextIsSubscribed st conxid event symbol = .ok b1) ∧
    (∃ b2, _contextIsSubscribing st conxid event symbol = .ok b2) ∧
    (ctx.events.lookup event = none →
      _contextIsSubscribed st conxid event symbol = .ok false ∧
      _contextIsSubscribing st conxid event symbol = .ok false) ∧
    (∀ syms, ctx.events.lookup event = some syms →
      syms.lookup symbol = none →
      _contextIsSubscribed st conxid event symbol = .ok false ∧
      _contextIsSubscribing st conxid event symbol = .ok false) := by
  rcases hev : ctx.events.lookup event with _ | syms
  · simp [_contextIsSubscribed, _contextIsSubscribing, hconx, hev]
  · rcases hsym : syms.lookup symbol with _ | sc
    · simp [_contextIsSubscribed, _contextIsSubscribing, hconx, hev, hsym]
    · refine ⟨⟨sc.subscribed, by simp [_contextIsSubscribed, hconx, hev, hsym]⟩,
        ⟨sc.subscribing, by simp [_contextIsSubscribing, hconx, hev, hsym]⟩,
        ?_, ?_⟩
      · intro hev2
        exact absurd hev2 (fun h => Option.noConfusion h)
      · intro syms2 hs2 hnone
        have h2 : syms = syms2 := by injection hs2
        exact absurd ((h2 ▸ hsym).symm.trans hnone) (fun h => Option.noConfusion h)

/-- Concrete context used by the C5 witness. -/
def exampleCtx : ConnectionContext :=
  ⟨[("orderbook", [("BTC/USD", ⟨true, false, none⟩)])]⟩

/-- Concrete store used by the C5 witness. -/
def exampleState : WsState := ⟨[("conx1", exampleCtx)]⟩

/-- Witness for the amended C5: reads on a known connection id with an
unknown event never raise. -/
theorem contextReads_total_on_known_conxid_witness :
    (∃ b1, _contextIsSubscribed exampleState "conx1" "trades" "BTC/USD" = .ok b1) ∧
    (∃ b2, _contextIsSubscribing exampleState "conx1" "trades" "BTC/USD" = .ok b2) ∧
    (exampleCtx.events.lookup "trades" = none →
      _contextIsSubscribed exampleState "conx1" "trades" "BTC/USD" = .ok false ∧
      _contextIsSubscribing exampleState "conx1" "trades" "BTC/USD" = .ok false) ∧
    (∀ syms, exampleCtx.events.lookup "trades" = some syms →
      syms.lookup "BTC/USD" = none →
      _contextIsSubscribed exampleState "conx1" "trades" "BTC/USD" = .ok false ∧
      _contextIsSubscribing exampleState "conx1" "trades" "BTC/USD" = .ok false) :=
  contextReads_total_on_known_conxid exampleState "conx1" "trades" "BTC/USD"
    exampleCtx rfl

/-- A string-valued Python dict, insertion ordered. -/
abbrev Dict : Type := List (String × String)

/-- A piece of a ccxt parameter template: literal text, or an
`\x7bname\x7d` placeholder. -/
inductive TPiece where
  | lit (s : String)
  | param (name : String)
deriving DecidableEq, Repr

/-- A ccxt parameter template such as the default
`conx-param = \x7b'url': '\x7bbaseurl\x7d', 'id': '\x7bid\x7d',
'stream': '\x7bsymbol\x7d'\x7d` values. -/
abbrev Template : Type := List TPiece

/-- Modelled from the spec: `implode_params` is defined in the repository's
base exchange class, which is not among these sources.  Per the spec's
"URL-parameter template", each placeholder is replaced by the value of the
named parameter; placeholders without a matching parameter stay as literal
text. -/
def implode_params (tpl : Template) (params : Dict) : String :=
  (tpl.map (fun piece =>
    match piece with
    | .lit s => s
    | .param name =>
      match params.lookup name with
      | some v => v
      | none => "\x7b" ++ name ++ "\x7d")).foldl (· ++ ·) ""

/-- Python dict update `d[k] = v`: replace in place when the key exists,
append otherwise (insertion order preserved). -/
def dset (d : Dict) (k v : String) : Dict :=
  if (d.lookup k).isSome then
    d.map (fun kv => if kv.1 = k then (k, v) else kv)
  else
    d ++ [(k, v)]

/-- Modelled from the spec: ccxt's `extend` dict merge (base exchange class,
outside these sources) — later entries override earlier ones. -/
def extend (a b : Dict) : Dict :=
  b.foldl (fun acc kv => dset acc kv.1 kv.2) a

/-- One entry of `wsconf['events']`: the referenced `conx-tpl` name and the
optional `conx-param` template dict. -/
structure EventConf where
  conxTpl : Option String
  conxParam : Option (List (String × Template))
deriving Repr

/-- The parts of `self.wsconf` read by `_websocket_get_action_for_event`:
the `events` and `conx-tpls` mappings. -/
structure Wsconf where
  events : List (String × EventConf)
  conxTpls : List (String × Dict)
deriving Repr

/-- The default `conx-param` of `_websocket_get_action_for_event`
(lines 459-463). -/
def defaultConxParam : List (String × Template) :=
  [("url", [.param "baseurl"]), ("id", [.param "id"]),
   ("stream", [.param "symbol"])]

/-- An `{event, symbol, params}` record as produced by
`_websocketContextGetSubscribedEventSymbols` (lines 318-331); the entry
appended by the `ws-s` subscribe branch (lines 505-508) carries no `params`
key, modelled as the empty dict. -/
structure EventSymbol where
  event : String
  symbol : String
  params : Dict := []
deriving DecidableEq, Repr

/-- The per-context body of `_websocketContextGetSubscribedEventSymbols`
(lines 318-331): every (event, symbol) whose context is subscribed or
subscribing, in dict iteration order, with its stored params (`{}` when the
`params` key is absent). -/
def subscribedEventSymbolsOf (ctx : ConnectionContext) : List EventSymbol :=
  ctx.events.foldr (fun ev acc =>
    (ev.2.foldr (fun sym acc2 =>
      if sym.2.subscribed || sym.2.subscribing then
        { event := ev.1, symbol := sym.1,
          params := (sym.2.params).getD [] } :: acc2
      else acc2) []) ++ acc) []

/-- `_websocketContextGetSubscribedEventSymbols(conxid)`: the outer
`_contextGetEvents` dict index raises `KeyError` on an unknown connection
id. -/
def _websocketContextGetSubscribedEventSymbols (st : WsState)
    (conxid : String) : Except PyErr (List EventSymbol) :=
  match st.websocketContexts.lookup conxid with
  | none => .error .keyError
  | some ctx => .ok (subscribedEventSymbolsOf ctx)

/-- The action dict returned by `_websocket_get_action_for_event`:
`action`, `conx-config`, `reset-context`, `conx-tpl`. -/
structure WsAction where
  action : String
  conxConfig : Dict
  resetContext : String
  conxTpl : String
deriving DecidableEq, Repr

/-- The `ws-s` unsubscribe loop (lines 517-521): delete the first entry
matching the event and symbol, then break. -/
def removeFirstEventSymbol (event symbol : String) :
    List EventSymbol → List EventSymbol
  | [] => []
  | x :: xs =>
    if x.event = event ∧ x.symbol = symbol then xs
    else x :: removeFirstEventSymbol event symbol xs

/-- Lines 451-473 of `_websocket_get_action_for_event`: resolve the event
configuration and connection template, build the `config` dict by imploding
each `conx-param` entry over `params = extend(conx_tpl,
\x7bevent, symbol, id\x7d)`, and check the required `id`/`url`/`type`
keys. -/
def websocketBuildEventConfig (wsconf : Wsconf) (exchangeId : String)
    (event symbol : String) : Except PyErr (String × Dict) :=
  match wsconf.events.lookup event with
  | none => .error (.exchangeError
      ("invalid websocket configuration for event: " ++ event ++
        " in exchange: " ++ exchangeId))
  | some event_conf =>
    let conx_tpl_name := (event_conf.conxTpl).getD "default"
    match wsconf.conxTpls.lookup conx_tpl_name with
    | none => .error (.exchangeError
        ("tpl websocket conexion: " ++ conx_tpl_name ++
          " does not exist in exchange: " ++ exchangeId))
    | some conx_tpl =>
      let conxParam := (event_conf.conxParam).getD defaultConxParam
      let params := extend conx_tpl
        [("event", event), ("symbol", symbol), ("id", conx_tpl_name)]
      let config := conxParam.foldl
        (fun cfg kv => dset cfg kv.1 (implode_params kv.2 params)) conx_tpl
      if (config.lookup "id").isSome ∧ (config.lookup "url").isSome ∧
          (config.lookup "type").isSome then
        .ok (conx_tpl_name, config)
      else
        .error (.exchangeError
          ("invalid websocket configuration in exchange: " ++ exchangeId))

/-- `_websocket_get_action_for_event(conxid, event, symbol, subscription,
subscription_params)` (lines 442-538).  `gen` stands for the
exchange-specific `_websocket_generate_url_stream` hook (line 924 raises
`NotSupported` in the base class; per the spec it encodes the given
event/symbol set in the connection URL).  `.ok none` models the Python
`return None` ("no action"). -/
def _websocket_get_action_for_event
    (gen : List EventSymbol → Dict → Dict → String)
    (wsconf : Wsconf) (exchangeId : String) (st : WsState)
    (conxid event symbol : String) (subscription : Bool)
    (subscription_params : Dict) : Except PyErr (Option WsAction) :=
  match _contextIsSubscribed st conxid event symbol with
  | .error e => .error e
  | .ok isSubscribed =>
    match _contextIsSubscribing st conxid event symbol with
    | .error e => .error e
    | .ok isSubscribing =>
      if subscription && (isSubscribed || isSubscribing) then
        .ok none
      else if !subscription && (!isSubscribed && !isSubscribing) then
        .ok none
      else
        match websocketBuildEventConfig wsconf exchangeId event symbol with
        | .error e => .error e
        | .ok (conx_tpl_name, config) =>
          match config.lookup "type" with
          | some "signalr" =>
            .ok (some ⟨"connect", config, "onconnect", conx_tpl_name⟩)
          | some "ws-io" =>
            .ok (some ⟨"connect", config, "onconnect", conx_tpl_name⟩)
          | some "pusher" =>
            .ok (some ⟨"connect", config, "onconnect", conx_tpl_name⟩)
          | some "ws" =>
            .ok (some ⟨"connect", config, "onconnect", conx_tpl_name⟩)
          | some "ws-s" =>
            match _websocketContextGetSubscribedEventSymbols st
                ((config.lookup "id").getD "") with
            | .error e => .error e
            | .ok subscribed =>
              if subscription then
                .ok (some ⟨"reconnect",
                  dset config "url"
                    (gen (subscribed ++ [{ event := event, symbol := symbol }])
                      config subscription_params),
                  "onreconnect", conx_tpl_name⟩)
              else
                if (removeFirstEventSymbol event symbol subscribed).length = 0 then
                  .ok (some ⟨"disconnect", config, "always", conx_tpl_name⟩)
                else
                  .ok (some ⟨"reconnect",
                    dset config "url"
                      (gen (removeFirstEventSymbol event symbol subscribed)
                        config subscription_params),
                    "onreconnect", conx_tpl_name⟩)
          | some t => .error (.notSupported
              ("invalid websocket connection: " ++ t ++ " for exchange " ++
                exchangeId))
          | none => .error (.notSupported
              ("invalid websocket connection for exchange " ++ exchangeId))

/-- **C2.** For the aggregate-stream (`ws-s`) template type,
`_websocket_get_action_for_event` on a subscribe request returns action
`reconnect` with the connection URL regenerated (by the exchange URL
generator) from the already-subscribed-or-subscribing (event, symbol) pairs
of the config's connection id plus the new pair; on an unsubscribe request
it removes that pair and returns `disconnect` when no pair remains,
otherwise `reconnect` with the URL regenerated from exactly the remaining
pairs. -/
theorem websocket_get_action_for_event_ws_s
    (gen : List EventSymbol → Dict → Dict → String) (wsconf : Wsconf)
    (exchangeId : String) (st : WsState) (conxid event symbol : String)
    (sp : Dict) (conx_tpl_name : String) (config : Dict) (cfgId : String)
    (ctx : ConnectionContext) (bSub bSubbing : Bool)
    (hsub : _contextIsSubscribed st conxid event symbol = .ok bSub)
    (hsubbing : _contextIsSubscribing st conxid event symbol = .ok bSubbing)
    (hbuild : websocketBuildEventConfig wsconf exchangeId event symbol =
      .ok (conx_tpl_name, config))
    (htype : config.lookup "type" = some "ws-s")
    (hid : config.lookup "id" = some cfgId)
    (hctx : st.websocketContexts.lookup cfgId = some ctx) :
    ((bSub || bSubbing) = false →
      _websocket_get_action_for_event gen wsconf exchangeId st conxid event
          symbol true sp =
        .ok (some ⟨"reconnect",
          dset config "url"
            (gen (subscribedEventSymbolsOf ctx ++
                [{ event := event, symbol := symbol }]) config sp),
          "onreconnect", conx_tpl_name⟩)) ∧
    ((bSub || bSubbing) = true →
      _websocket_get_action_for_event gen wsconf exchangeId st conxid event
          symbol false sp =
        .ok (some
          (if (removeFirstEventSymbol event symbol
              (subscribedEventSymbolsOf ctx)).length = 0 then
            ⟨"disconnect", config, "always", conx_tpl_name⟩
          else
            ⟨"reconnect",
              dset config "url"
                (gen (removeFirstEventSymbol event symbol
                  (subscribedEventSymbolsOf ctx)) config sp),
              "onreconnect", conx_tpl_name⟩))) := by
  constructor <;> intro h
  · simp [_websocket_get_action_for_event, hsub, hsubbing, hbuild, htype,
      hid, hctx, _websocketContextGetSubscribedEventSymbols, h]
  · simp [_websocket_get_action_for_event, hsub, hsubbing, hbuild, htype,
      hid, hctx, _websocketContextGetSubscribedEventSymbols, h]
    rw [if_neg (by rcases bSub <;> rcases bSubbing <;> simp_all)]
    split <;> rfl

/-- URL generator used by the C2 witness: folds the symbols into a URL
string. -/
def exampleGen : List EventSymbol → Dict → Dict → String :=
  fun evs _ _ => (evs.map (fun e => e.symbol)).foldl (· ++ ·) "url:"

/-- `ws-s` connection template used by the C2 witness. -/
def exampleWsSTpl : Dict :=
  [("id", "tplA"), ("url", "wss://x"), ("type", "ws-s")]

/-- `wsconf` used by the C2 witness. -/
def exampleWsconf : Wsconf :=
  ⟨[("ob", ⟨some "tplA", none⟩)], [("tplA", exampleWsSTpl)]⟩

/-- The config `websocketBuildEventConfig` produces on the witness data. -/
def exampleConfig : Dict :=
  [("id", "tplA"), ("url", "\x7bbaseurl\x7d"), ("type", "ws-s"),
   ("stream", "BTC/USD")]

/-- The config `websocketBuildEventConfig` produces on the witness
unsubscribe request (its `stream` parameter is the unsubscribed symbol). -/
def exampleConfigEth : Dict :=
  [("id", "tplA"), ("url", "\x7bbaseurl\x7d"), ("type", "ws-s"),
   ("stream", "ETH/USD")]

/-- Context of connection `tplA` in the C2 witness: one subscribed pair
("ob", "ETH/USD"). -/
def exampleWsSCtx : ConnectionContext :=
  ⟨[("ob", [("ETH/USD", ⟨true, false, none⟩)])]⟩

/-- Context store used by the C2 witness. -/
def exampleWsSState : WsState := ⟨[("tplA", exampleWsSCtx)]⟩

/-- Witness for C2: subscribing a second symbol on a live `ws-s` connection
yields `reconnect` with the URL over both pairs; unsubscribing the only
subscribed symbol yields `disconnect`. -/
theorem websocket_get_action_for_event_ws_s_witness :
    (_websocket_get_action_for_event exampleGen exampleWsconf "ex"
        exampleWsSState "tplA" "ob" "BTC/USD" true [] =
      .ok (some ⟨"reconnect",
        dset exampleConfig "url"
          (exampleGen (subscribedEventSymbolsOf exampleWsSCtx ++
            [{ event := "ob", symbol := "BTC/USD" }]) exampleConfig []),
        "onreconnect", "tplA"⟩)) ∧
    (_websocket_get_action_for_event exampleGen exampleWsconf "ex"
        exampleWsSState "tplA" "ob" "ETH/USD" false [] =
      .ok (some
        (if (removeFirstEventSymbol "ob" "ETH/USD"
            (subscribedEventSymbolsOf exampleWsSCtx)).length = 0 then
          ⟨"disconnect", exampleConfigEth, "always", "tplA"⟩
        else
          ⟨"reconnect",
            dset exampleConfigEth "url"
              (exampleGen (removeFirstEventSymbol "ob" "ETH/USD"
                (subscribedEventSymbolsOf exampleWsSCtx)) exampleConfigEth []),
            "onreconnect", "tplA"⟩))) :=
  ⟨(websocket_get_action_for_event_ws_s exampleGen exampleWsconf "ex"
      exampleWsSState "tplA" "ob" "BTC/USD" [] "tplA" exampleConfig "tplA"
      exampleWsSCtx false false rfl rfl rfl rfl rfl rfl).1 rfl,
    (websocket_get_action_for_event_ws_s exampleGen exampleWsconf "ex"
      exampleWsSState "tplA" "ob" "ETH/USD" [] "tplA" exampleConfigEth "tplA"
      exampleWsSCtx true false rfl rfl rfl rfl rfl rfl).2 rfl⟩

/-!
Part 3: the pending-operation synchronizer.  An `asyncio.Future` is pending
until resolved with a result or an exception; `set_result`/`set_exception`
on an already-resolved future raise `InvalidStateError`.  The source always
guards resolution with the `future.done() or ...` idiom (exchange.py lines
626-628, 748-749, 841-847, 883-887).
-/

/-- The state of one `asyncio.Future`. -/
inductive FutureState where
  | pending
  | result (conxid : String)
  | exception (e : PyErr)
deriving DecidableEq, Repr

/-- `future.done()`. -/
def FutureState.done : FutureState → Bool
  | .pending => false
  | .result _ => true
  | .exception _ => true

/-- `future.set_result(v)`: raises `InvalidStateError` when the future is
already resolved. -/
def FutureState.set_result (f : FutureState) (v : String) :
    Except PyErr FutureState :=
  if f.done then .error .invalidState else .ok (.result v)

/-- `future.set_exception(e)`: raises `InvalidStateError` when the future is
already resolved. -/
def FutureState.set_exception (f : FutureState) (e : PyErr) :
    Except PyErr FutureState :=
  if f.done then .error .invalidState else .ok (.exception e)

/-- The subscription flags of the (conxid, event, symbol) context entry that
the acknowledgement callback mutates. -/
structure SymFlags where
  subscribed : Bool
  subscribing : Bool
deriving DecidableEq, Repr

/-- Joint state of one pending subscribe operation: the symbol's context
flags and the operation's future. -/
structure OpState where
  flags : SymFlags
  fut : FutureState
deriving DecidableEq, Repr

/-- What can reach one pending subscribe operation: its acknowledgement
callback firing with `(success, ex)`, or the `timeout_future` timer firing
at the deadline. -/
inductive OpEvent where
  | ack (success : Bool) (ex : Option PyErr)
  | timer
deriving DecidableEq, Repr

/-- `wait4obsubscribe(success, ex)` (lines 836-847): on success mark the
symbol subscribed and resolve the future with the conxid; on failure roll
the flags back and resolve with the error (an `ExchangeError` when none is
supplied; the source interpolates the event and symbol into its message).
Both resolutions use the `future.done() or ...` guard. -/
def wait4obsubscribe (conxid : String) (st : OpState) (success : Bool)
    (ex : Option PyErr) : Except PyErr OpState :=
  if success then
    if st.fut.done then
      .ok { st with flags := ⟨true, false⟩ }
    else
      match (FutureState.pending).set_result conxid with
      | .error e => .error e
      | .ok f => .ok { flags := ⟨true, false⟩, fut := f }
  else
    if st.fut.done then
      .ok { st with flags := ⟨false, false⟩ }
    else
      match (FutureState.pending).set_exception
          (ex.getD (.exchangeError "error subscribing")) with
      | .error e => .error e
      | .ok f => .ok { flags := ⟨false, false⟩, fut := f }

/-- The callback scheduled by `timeout_future` (lines 747-749):
`future.done() or future.set_exception(TimeoutError('timeout in scope:
...'))`. -/
def timeoutFire (scope : String) (st : OpState) : Except PyErr OpState :=
  if st.fut.done then
    .ok st
  else
    match (FutureState.pending).set_exception (.timeout scope) with
    | .error e => .error e
    | .ok f => .ok { st with fut := f }

/-- Delivery of one event to a pending operation. -/
def opStep (conxid scope : String) (st : OpState) :
    OpEvent → Except PyErr OpState
  | .ack success ex => wait4obsubscribe conxid st success ex
  | .timer => timeoutFire scope st

/-- Total form of `opStep`; `pending_operation_resolution` proves the
guarded callbacks never actually raise, i.e. `opStep` always returns `.ok`
of this. -/
def opStepTotal (conxid scope : String) (st : OpState) : OpEvent → OpState
  | .ack success ex =>
    if success then
      { flags := ⟨true, false⟩,
        fut := if st.fut.done then st.fut else .result conxid }
    else
      { flags := ⟨false, false⟩,
        fut := if st.fut.done then st.fut
               else .exception (ex.getD (.exchangeError "error subscribing")) }
  | .timer =>
    { st with fut := if st.fut.done then st.fut
                     else .exception (.timeout scope) }

/-- Deliver a sequence of events, propagating any raised exception. -/
def runEvents (conxid scope : String) :
    OpState → List OpEvent → Except PyErr OpState
  | st, [] => .ok st
  | st, e :: es =>
    match opStep conxid scope st e with
    | .error err => .error err
    | .ok st2 => runEvents conxid scope st2 es

/-- Total form of `runEvents`. -/
def runEventsTotal (conxid scope : String) :
    OpState → List OpEvent → OpState
  | st, [] => st
  | st, e :: es => runEventsTotal conxid scope (opStepTotal conxid scope st e) es

theorem pending_not_done : FutureState.pending.done = false := rfl

theorem opStep_no_raise (conxid scope : String) (st : OpState) (e : OpEvent) :
    opStep conxid scope st e = .ok (opStepTotal conxid scope st e) := by
  rcases e with ⟨success, ex⟩ | _
  · rcases success <;> rcases hd : st.fut.done <;>
      simp [opStep, opStepTotal, wait4obsubscribe, FutureState.set_result,
        FutureState.set_exception, pending_not_done, hd]
  · rcases hd : st.fut.done <;>
      simp [opStep, opStepTotal, timeoutFire, FutureState.set_exception,
        pending_not_done, hd]

theorem opStepTotal_done_fut (conxid scope : String) (st : OpState)
    (e : OpEvent) (hd : st.fut.done = true) :
    (opStepTotal conxid scope st e).fut = st.fut := by
  rcases e with ⟨success, ex⟩ | _
  · rcases success <;> simp [opStepTotal, hd]
  · simp [opStepTotal, hd]

/-- **C3.** Pending-operation resolution is safe and at-most-once:
(1) delivering any event sequence never raises (the `done()` guards make the
`set_result`/`set_exception` calls safe, so a duplicate acknowledgement or
an acknowledgement after timeout raises no error); (2) once the future is
resolved, its value is never changed by later events — a later resolution
attempt leaves the result unchanged; (3) when the timer fires at the
deadline with no acknowledgement delivered before it, the future resolves
with the `Timeout` error, and events after the deadline cannot alter it. -/
theorem pending_operation_resolution (conxid scope : String) :
    (∀ st evs, runEvents conxid scope st evs =
      .ok (runEventsTotal conxid scope st evs)) ∧
    (∀ st evs, st.fut.done = true →
      (runEventsTotal conxid scope st evs).fut = st.fut) ∧
    (∀ fl post, (runEventsTotal conxid scope ⟨fl, .pending⟩
        (.timer :: post)).fut = .exception (.timeout scope)) := by
  have htotal : ∀ evs st, runEvents conxid scope st evs =
      .ok (runEventsTotal conxid scope st evs) := by
    intro evs
    induction evs with
    | nil => intro st; rfl
    | cons e es ih =>
      intro st
      rw [runEvents, opStep_no_raise, runEventsTotal]
      exact ih _
  have hstable : ∀ evs st, st.fut.done = true →
      (runEventsTotal conxid scope st evs).fut = st.fut := by
    intro evs
    induction evs with
    | nil => intro st _; rfl
    | cons e es ih =>
      intro st hd
      rw [runEventsTotal]
      rw [ih _ (by rw [opStepTotal_done_fut conxid scope st e hd]; exact hd)]
      exact opStepTotal_done_fut conxid scope st e hd
  refine ⟨fun st evs => htotal evs st, fun st evs => hstable evs st, ?_⟩
  intro fl post
  rw [runEventsTotal]
  have h1 : (opStepTotal conxid scope ⟨fl, .pending⟩ .timer).fut =
      .exception (.timeout scope) := by
    simp [opStepTotal, FutureState.done]
  rw [hstable post _ (by rw [h1]; rfl)]
  exact h1

/-- Witness for C3: a concrete pending operation that times out; the later
acknowledgement raises nothing and leaves the `Timeout` resolution in
place. -/
theorem pending_operation_resolution_witness :
    (runEvents "conx1" "websocket_subscribe" ⟨⟨false, true⟩, .pending⟩
        [.timer, .ack true none] =
      .ok (runEventsTotal "conx1" "websocket_subscribe" ⟨⟨false, true⟩, .pending⟩
        [.timer, .ack true none])) ∧
    ((runEventsTotal "conx1" "websocket_subscribe" ⟨⟨false, true⟩, .pending⟩
        [.timer, .ack true none]).fut =
      .exception (.timeout "websocket_subscribe")) ∧
    ((runEventsTotal "conx1" "websocket_subscribe"
        ⟨⟨true, false⟩, .result "conx1"⟩ [.ack true none, .ack true none]).fut =
      (FutureState.result "conx1")) :=
  ⟨(pending_operation_resolution "conx1" "websocket_subscribe").1
      ⟨⟨false, true⟩, .pending⟩ [.timer, .ack true none],
   (pending_operation_resolution "conx1" "websocket_subscribe").2.2
      ⟨false, true⟩ [.ack true none],
   (pending_operation_resolution "conx1" "websocket_subscribe").2.1
      ⟨⟨true, false⟩, .result "conx1"⟩ [.ack true none, .ack true none] rfl⟩

/-!
Part 4: error isolation in `websocket_subscribe_all` (lines 811-851).
Phase 1 (lines 818-824) resolves every request and sets `subscribing=True`;
phase 2 (lines 827-851) walks the requests in order and, for each one,
registers the acknowledgement callback, schedules the timeout, sends the
subscribe message and `await`s the future *inside the loop*, so an
exception propagates out of the `for` and aborts the remaining requests.
-/

/-- Outcome of awaiting one subscribe acknowledgement: a successful ack, a
failure ack (with no explicit error object), or no ack before the
deadline. -/
inductive AckOutcome where
  | ok
  | ackFail
  | ackTimeout
deriving DecidableEq, Repr

/-- Per-request state in the batch model: the symbol's context flags and
whether `_websocket_subscribe` was invoked (message sent). -/
structure ReqState where
  flags : SymFlags
  sent : Bool
deriving DecidableEq, Repr

/-- State of a request right after phase 1: `subscribing=True`,
`subscribed=False`, message not yet sent. -/
def initReq : ReqState := ⟨⟨false, true⟩, false⟩

/-- Lines 832-851 for one request: send the message, then await the future;
the resolution is produced by the event trace matching the outcome, run
through the Part-3 callback semantics.  Returns the request's final state
and the exception re-raised by `await future`, if any. -/
def awaitOutcome (conxid : String) (o : AckOutcome) : ReqState × Option PyErr :=
  let trace := match o with
    | .ok => [OpEvent.ack true none]
    | .ackFail => [OpEvent.ack false none]
    | .ackTimeout => [OpEvent.timer]
  let fin := runEventsTotal conxid "websocket_subscribe"
    ⟨⟨false, true⟩, .pending⟩ trace
  (⟨fin.flags, true⟩,
    match fin.fut with
    | .exception e => some e
    | _ => none)

/-- The phase-2 loop: requests processed strictly in order; on the first
raised exception the loop aborts, leaving every later request in its
phase-1 state, and the exception propagates to the caller of
`websocket_subscribe_all`. -/
def subscribeAllPhase2 (conxid : String) :
    List AckOutcome → List ReqState × Option PyErr
  | [] => ([], none)
  | o :: os =>
    match awaitOutcome conxid o with
    | (st, none) =>
      match subscribeAllPhase2 conxid os with
      | (sts, err2) => (st :: sts, err2)
    | (st, some e) => (st :: os.map (fun _ => initReq), some e)

theorem awaitOutcome_ok (conxid : String) :
    awaitOutcome conxid .ok = (⟨⟨true, false⟩, true⟩, none) := rfl

theorem awaitOutcome_ackFail (conxid : String) :
    awaitOutcome conxid .ackFail =
      (⟨⟨false, false⟩, true⟩, some (.exchangeError "error subscribing")) := rfl

theorem awaitOutcome_ackTimeout (conxid : String) :
    awaitOutcome conxid .ackTimeout =
      (⟨⟨false, true⟩, true⟩, some (.timeout "websocket_subscribe")) := rfl

/-- C4 counterexample: in a two-request batch whose first acknowledgement
fails, the second request's subscribe message is never sent (it keeps its
phase-1 state), contradicting "every other request in the same batch still
has its subscribe message sent and its acknowledgement awaited"; moreover a
request that times out keeps `subscribing=True` instead of being set to
`subscribed=false, subscribing=false`. -/
theorem subscribeAll_sibling_abandoned :
    ((subscribeAllPhase2 "conx1" [.ackFail, .ok]).1.getD 1 initReq).sent
        = false ∧
      ((subscribeAllPhase2 "conx1" [.ackTimeout]).1.getD 0
        initReq).flags.subscribing = true := by
  constructor <;> rfl

/-- **C4 (amended).** In `websocket_subscribe_all`, acknowledgements are
awaited sequentially inside the request loop.  When every request before
the first failing one succeeds: each earlier request was sent and completed
(`subscribed=true, subscribing=false`, no rollback); the failing request
was sent, its flags are set to `subscribed=false, subscribing=false` on an
acknowledgement failure but remain `subscribing=true` on a timeout; its
error propagates to the caller of the whole call; and every request after
the failing one is abandoned in its phase-1 state — message never sent,
still `subscribing=true`. -/
theorem subscribeAll_first_failure (conxid : String)
    (pre post : List AckOutcome) (bad : AckOutcome)
    (hpre : ∀ o ∈ pre, o = AckOutcome.ok) (hbad : bad ≠ AckOutcome.ok) :
    subscribeAllPhase2 conxid (pre ++ bad :: post) =
      (pre.map (fun _ => (⟨⟨true, false⟩, true⟩ : ReqState)) ++
        (⟨if bad = .ackFail then ⟨false, false⟩ else ⟨false, true⟩,
          true⟩ : ReqState) :: post.map (fun _ => initReq),
      some (if bad = .ackFail then .exchangeError "error subscribing"
            else .timeout "websocket_subscribe")) := by
  induction pre with
  | nil =>
    rcases bad with _ | _ | _
    · exact absurd rfl hbad
    · simp [subscribeAllPhase2, awaitOutcome_ackFail]
    · simp [subscribeAllPhase2, awaitOutcome_ackTimeout]
  | cons o pre ih =>
    have ho : o = AckOutcome.ok := hpre o (List.mem_cons_self _ _)
    subst ho
    rw [List.cons_append]
    rw [subscribeAllPhase2, awaitOutcome_ok,
      ih (fun o ho => hpre o (List.mem_cons_of_mem _ ho))]
    simp

/-- Witness for the amended C4 on a concrete three-request batch whose
middle acknowledgement fails. -/
theorem subscribeAll_first_failure_witness :
    subscribeAllPhase2 "conx1" ([.ok] ++ AckOutcome.ackFail :: [.ok]) =
      ([AckOutcome.ok].map (fun _ => (⟨⟨true, false⟩, true⟩ : ReqState)) ++
        (⟨if AckOutcome.ackFail = .ackFail then ⟨false, false⟩
            else ⟨false, true⟩, true⟩ : ReqState) ::
          [AckOutcome.ok].map (fun _ => initReq),
      some (if AckOutcome.ackFail = .ackFail then
          .exchangeError "error subscribing"
        else .timeout "websocket_subscribe")) :=
  subscribeAll_first_failure "conx1" [.ok] [.ok] .ackFail
    (by simp) (by simp)

/-!
Part 5: the delayed-connection batch flush (C9).  The orchestrators are
modelled by the order in which they perform three kinds of operations:
resolving a request against the context store (`_websocket_ensure_conx_active
(..., delayed=True)`), flushing the delayed batch
(`await _websocket_connect_delayed()`), and awaiting one request's
acknowledgement future.
-/

/-- One orchestrator-level operation. -/
inductive OrchOp where
  | resolve (i : Nat)
  | flush
  | awaitAck (i : Nat)
deriving DecidableEq, Repr

/-- Operation order of `websocket_subscribe_all` with `n` requests
(lines 811-851): all requests are resolved (lines 818-824), the single
flush runs (line 826), then each acknowledgement is awaited
(lines 827-851). -/
def subscribeAllTrace (n : Nat) : List OrchOp :=
  (List.range n).map OrchOp.resolve ++ OrchOp.flush ::
    (List.range n).map OrchOp.awaitAck

/-- Operation order of `websocket_unsubscribe_all` with `n` requests
(lines 860-894): each request is resolved and its acknowledgement awaited
inside the loop (lines 867-891); the single flush runs in the `finally`
(line 894), after the loop, even when an await raised. -/
def unsubscribeAllTrace (n : Nat) : List OrchOp :=
  ((List.range n).map (fun i => [OrchOp.resolve i, OrchOp.awaitAck i])).flatten
    ++ [OrchOp.flush]

/-- Whether an operation is a context resolution. -/
def isResolve : OrchOp → Bool
  | .resolve _ => true
  | _ => false

/-- Whether an operation is an acknowledgement await. -/
def isAwait : OrchOp → Bool
  | .awaitAck _ => true
  | _ => false

/-- The ordering property asserted by the claim, written from the claim's
words as a trace predicate: the flush occurs exactly once, no
acknowledgement await precedes it, and no resolution follows it. -/
def claimFlushOrdering (tr : List OrchOp) : Bool :=
  (tr.count OrchOp.flush == 1) &&
  ((tr.takeWhile (fun x => x != OrchOp.flush)).all fun x => !(isAwait x)) &&
  (((tr.dropWhile (fun x => x != OrchOp.flush)).drop 1).all fun x =>
    !(isResolve x))

/-- One queued delayed connection (lines 590-595): template name and reset
flag. -/
structure DelayedEntry where
  conxtpl : String
  reset : Bool
deriving DecidableEq, Repr

/-- The `for` body of `_websocket_connect_delayed` (lines 601-608):
`await websocket_connect(conxid)` per queued id, aborting on the first
raised error.  `connectResult` gives each connect's outcome. -/
def connectDelayedLoop (connectResult : String → Option PyErr) :
    List (String × DelayedEntry) → Option PyErr
  | [] => none
  | kv :: rest =>
    match connectResult kv.1 with
    | some e => some e
    | none => connectDelayedLoop connectResult rest

/-- `_websocket_connect_delayed` (lines 601-608): run the loop; the
`finally` replaces `websocketDelayedConnections` with `{}` whether or not a
connect raised, so the returned mapping is empty in every case. -/
def _websocket_connect_delayed (delayed : List (String × DelayedEntry))
    (connectResult : String → Option PyErr) :
    List (String × DelayedEntry) × Option PyErr :=
  ([], connectDelayedLoop connectResult delayed)

/-- C9 counterexample: in `websocket_unsubscribe_all` with one request, the
acknowledgement is awaited before the flush, so the flush is not "before
any acknowledgement future is awaited" as claimed. -/
theorem unsubscribe_flush_after_award :
    unsubscribeAllTrace 1 = [.resolve 0, .awaitAck 0, .flush] ∧
      claimFlushOrdering (unsubscribeAllTrace 1) = false := by
  constructor <;> rfl

theorem count_flush_map_eq_zero (g : Nat → OrchOp)
    (hg : ∀ i, g i ≠ OrchOp.flush) (m : Nat) :
    ((List.range m).map g).count OrchOp.flush = 0 := by
  rw [List.count_eq_zero]
  intro hmem
  rcases List.mem_map.mp hmem with ⟨i, _, hgi⟩
  exact hg i hgi

theorem takeWhile_dropWhile_append_flush (L R : List OrchOp)
    (hL : ∀ x ∈ L, x ≠ OrchOp.flush) :
    (L ++ OrchOp.flush :: R).takeWhile (fun x => x != OrchOp.flush) = L ∧
    (L ++ OrchOp.flush :: R).dropWhile (fun x => x != OrchOp.flush) =
      OrchOp.flush :: R := by
  induction L with
  | nil => constructor <;> rfl
  | cons a L ih =>
    have ha : (a != OrchOp.flush) = true :=
      bne_iff_ne.mpr (hL a (List.mem_cons_self _ _))
    obtain ⟨ht, hd⟩ := ih (fun x hx => hL x (List.mem_cons_of_mem _ hx))
    constructor
    · rw [List.cons_append,
        @List.takeWhile_cons_of_pos _ (fun x => x != OrchOp.flush) a
          (L ++ OrchOp.flush :: R) ha, ht]
    · rw [List.cons_append,
        @List.dropWhile_cons_of_pos _ (fun x => x != OrchOp.flush) a
          (L ++ OrchOp.flush :: R) ha, hd]

/-- **C9 (amended).** In both `websocket_subscribe_all` and
`websocket_unsubscribe_all` the delayed-connection batch is flushed exactly
once per call, and `_websocket_connect_delayed` clears the whole
`websocketDelayedConnections` mapping even when a physical connect raises.
In `websocket_subscribe_all` the flush comes after all context resolutions
and before any acknowledgement await; in `websocket_unsubscribe_all`,
however, each request is resolved and its acknowledgement awaited inside
the loop and the single flush runs afterwards, in a `finally`. -/
theorem delayed_flush_once_per_call (n : Nat) :
    (subscribeAllTrace n).count OrchOp.flush = 1 ∧
    (unsubscribeAllTrace n).count OrchOp.flush = 1 ∧
    claimFlushOrdering (subscribeAllTrace n) = true ∧
    (∀ delayed connectResult,
      (_websocket_connect_delayed delayed connectResult).1 = []) := by
  have hres : ∀ (i : Nat), OrchOp.resolve i ≠ OrchOp.flush := by
    intro i h
    cases h
  have hawt : ∀ (i : Nat), OrchOp.awaitAck i ≠ OrchOp.flush := by
    intro i h
    cases h
  have hcount1 : (subscribeAllTrace n).count OrchOp.flush = 1 := by
    rw [subscribeAllTrace, List.count_append, List.count_cons,
      count_flush_map_eq_zero _ hres, count_flush_map_eq_zero _ hawt]
    rfl
  have hjoin0 : (((List.range n).map
      (fun i => [OrchOp.resolve i, OrchOp.awaitAck i])).flatten).count
      OrchOp.flush = 0 := by
    rw [List.count_eq_zero]
    intro hmem
    rcases List.mem_flatten.mp hmem with ⟨l, hl, hx⟩
    rcases List.mem_map.mp hl with ⟨i, _, rfl⟩
    rcases List.mem_cons.mp hx with h | h
    · exact hres i h.symm
    · rcases List.mem_cons.mp h with h2 | h2
      · exact hawt i h2.symm
      · exact absurd h2 (List.not_mem_nil _)
  have hcount2 : (unsubscribeAllTrace n).count OrchOp.flush = 1 := by
    rw [unsubscribeAllTrace, List.count_append, hjoin0]
    rfl
  have htake := takeWhile_dropWhile_append_flush
    ((List.range n).map OrchOp.resolve) ((List.range n).map OrchOp.awaitAck)
    (fun x hx => by
      rcases List.mem_map.mp hx with ⟨i, _, rfl⟩
      exact hres i)
  refine ⟨hcount1, hcount2, ?_, fun _ _ => rfl⟩
  rw [claimFlushOrdering, subscribeAllTrace, htake.1, htake.2]
  rw [subscribeAllTrace] at hcount1
  rw [hcount1]
  simp only [List.drop_succ_cons, List.drop_zero]
  simp only [Bool.and_eq_true, List.all_eq_true]
  refine ⟨⟨rfl, ?_⟩, ?_⟩
  · intro x hx
    rcases List.mem_map.mp hx with ⟨i, _, rfl⟩
    rfl
  · intro x hx
    rcases List.mem_map.mp hx with ⟨i, _, rfl⟩
    rfl

/-!
Part 6: wire-format normalization (`parse_bids_asks2`, lines 955-967, and
`mergeOrderBookDelta`, lines 938-953).
-/

/-- A wire-level entry of a `bids`/`asks` array: a nested array of numbers
(`type(x) is list`), an object with numeric keys (`type(x) is dict`), or any
other value (for example a bare number), as distinguished by the source's
`type(...)` tests. -/
inductive BidAskValue where
  | arr (items : List ℤ)
  | obj (fields : List (Nat × ℤ))
  | other (tag : String)
deriving DecidableEq, Repr

/-- Modelled from the spec: `parse_bid_ask` is defined in the repository's
base exchange class, which is not among these sources.  Per the spec, an
entry is "normalized into `(price, amount)` pairs" by reading its
`price_key` and `amount_key` positions.  A missing position normalizes to 0
and the `other` case to `(0, 0)`; neither is reached by the theorems below,
which only evaluate it on entries whose keys are present. -/
def parse_bid_ask (bidask : BidAskValue) (price_key amount_key : Nat) :
    Level :=
  match bidask with
  | .arr items => (items.getD price_key 0, items.getD amount_key 0)
  | .obj fields =>
    ((fields.lookup price_key).getD 0, (fields.lookup amount_key).getD 0)
  | .other _ => (0, 0)

/-- The `(price_key in bidask) and (amount_key in bidask)` filter of the
dict branch (line 963).  Non-dict entries inside a dict-headed message are
outside the claims' scope and filtered here. -/
def objHasKeys (b : BidAskValue) (pk ak : Nat) : Bool :=
  match b with
  | .obj fields => (fields.lookup pk).isSome && (fields.lookup ak).isSome
  | _ => false

/-- `parse_bids_asks2(bidasks, price_key, amount_key)` (lines 955-967): an
empty message yields `[]`; otherwise the shape is decided by the first
element only — a list head parses every entry, a dict head parses exactly
the entries carrying both keys (the rest are silently skipped), and any
other head raises `ExchangeError('unrecognized bidask format: ...')`. -/
def parse_bids_asks2 (bidasks : List BidAskValue)
    (price_key amount_key : Nat) : Except PyErr (List Level) :=
  match bidasks with
  | [] => .ok []
  | first :: _ =>
    match first with
    | .arr _ =>
      .ok (bidasks.map (fun b => parse_bid_ask b price_key amount_key))
    | .obj _ =>
      .ok ((bidasks.filter (fun b => objHasKeys b price_key amount_key)).map
        (fun b => parse_bid_ask b price_key amount_key))
    | .other t => .error (.exchangeError ("unrecognized bidask format: " ++ t))

/-- An inbound delta message as seen by `mergeOrderBookDelta` (lines
938-945): each side is `some` raw entries when the key is present and the
value `isinstance(..., list)`, and `none` otherwise (the source then uses
`[]`). -/
structure WireOrderBook where
  bids : Option (List BidAskValue)
  asks : Option (List BidAskValue)

/-- The maintained order book: two sides and a timestamp (`datetime` is
derived from the timestamp by `iso8601` and carries no extra
information). -/
structure OrderBook where
  bids : List Level
  asks : List Level
  timestamp : Option ℤ

/-- `mergeOrderBookDelta(currentOrderBook, orderbook, timestamp, ...)`
(lines 938-953): parse both sides, apply every bid delta then every ask
delta through `updateBidAsk`, then stamp the book; a parse failure
propagates before any side is mutated. -/
def mergeOrderBookDelta (current : OrderBook) (orderbook : WireOrderBook)
    (timestamp : Option ℤ) (price_key amount_key : Nat) :
    Except PyErr OrderBook :=
  match (match orderbook.bids with
    | some raw => parse_bids_asks2 raw price_key amount_key
    | none => .ok []) with
  | .error e => .error e
  | .ok bids =>
    match (match orderbook.asks with
      | some raw => parse_bids_asks2 raw price_key amount_key
      | none => .ok []) with
    | .error e => .error e
    | .ok asks =>
      .ok { bids := applyDeltas bids current.bids true,
            asks := applyDeltas asks current.asks false,
            timestamp := timestamp }

/-- C8 counterexample: an array-of-objects message (a well-formed wire
shape) whose single entry lacks the amount key is neither normalized into a
`(price, amount)` pair nor rejected with an error — the entry is silently
skipped and the call succeeds with the empty list. -/
theorem parse_bids_asks2_skips_keyless_object :
    parse_bids_asks2 [BidAskValue.obj [(0, 5)]] 0 1 = .ok [] := rfl

/-- **C8 (amended).** `parse_bids_asks2` (and through it
`mergeOrderBookDelta`) decides the wire shape from the first element only:
an empty message is accepted as `[]`; an array-headed message normalizes
every entry into a `(price, amount)` pair; an object-headed message
normalizes exactly the entries carrying both keys, silently skipping the
others; and a message headed by anything else is rejected with
`ExchangeError('unrecognized bidask format')` — the spec's `InvalidFormat`
— which `mergeOrderBookDelta` propagates without touching the book. -/
theorem parse_bids_asks2_shapes (pk ak : Nat) (items : List ℤ)
    (fields : List (Nat × ℤ)) (rest : List BidAskValue) (t : String)
    (cur : OrderBook) :
    parse_bids_asks2 [] pk ak = .ok [] ∧
    parse_bids_asks2 (.arr items :: rest) pk ak =
      .ok (((BidAskValue.arr items) :: rest).map
        (fun b => parse_bid_ask b pk ak)) ∧
    (parse_bids_asks2 (.arr items :: rest) pk ak).map List.length =
      .ok (rest.length + 1) ∧
    parse_bids_asks2 (.obj fields :: rest) pk ak =
      .ok ((((BidAskValue.obj fields) :: rest).filter
        (fun b => objHasKeys b pk ak)).map (fun b => parse_bid_ask b pk ak)) ∧
    parse_bids_asks2 (.other t :: rest) pk ak =
      .error (.exchangeError ("unrecognized bidask format: " ++ t)) ∧
    mergeOrderBookDelta cur ⟨some (.other t :: rest), none⟩ none pk ak =
      .error (.exchangeError ("unrecognized bidask format: " ++ t)) := by
  refine ⟨rfl, rfl, ?_, rfl, rfl, rfl⟩
  simp [parse_bids_asks2, Except.map]

end Ccxt
